import Mathlib

/-!
Verification of the memory-assistant repository's memory consolidation and
context-construction subsystem (backend/services/memory_service.py,
backend/services/llm_service.py, backend/models/database.py).

The store is modelled as in-memory lists standing for the three SQLAlchemy
tables; a row field that the Python code can leave as `None` (because values
flow in through `dict.get`, which yields `None` for a missing JSON field)
is an `Option String`.  SQLAlchemy's `column == value` filter translates a
Python `None` to `IS NULL`, which coincides with `Option` equality, so the
queries are modelled by Boolean equality on `Option String`.
-/

namespace MemoryAssistant

/-- Row of the `user_profile` table (database.py `UserProfile`).
`key` and `value` are `Option String` because `save_extracted_information`
feeds them from `dict.get`, which can produce `None`. -/
structure UserProfile where
  key : Option String
  value : Option String
  category : Option String
deriving DecidableEq

/-- Row of the `goals` table (database.py `Goal`).  `deadline` is kept in its
rendered string form; timestamps are omitted (no claim mentions them). -/
structure Goal where
  id : Nat
  title : Option String
  description : Option String
  deadline : Option String
  priority : Option String
  status : String
  progress : Nat
deriving DecidableEq

/-- Row of the `conversations` table (database.py `Conversation`); only the
fields relevant to the delete operations are kept. -/
structure Conversation where
  id : Nat
  user_message : String
  assistant_message : String
deriving DecidableEq

/-- The persistent store backing one `MemoryService` instance: the three
tables in natural (insertion) retrieval order, plus the autoincrement
counter for `goals.id`. -/
structure Store where
  profiles : List UserProfile
  goals : List Goal
  conversations : List Conversation
  nextGoalId : Nat
deriving DecidableEq

/-- Python truthiness of an optional string (`if category:`):
`None` and the empty string are falsy. -/
def truthy : Option String → Bool
  | none => false
  | some s => !(s == "")

/-- Python `str(x)` for an optional string as used inside an f-string:
`str(None)` is the text `None`. -/
def pyStr : Option String → String
  | none => "None"
  | some s => s

/-- `MemoryService.get_user_profile`: first row whose key equals `key`
(`IS NULL` when `key` is `None`). -/
def get_user_profile (s : Store) (key : Option String) : Option UserProfile :=
  s.profiles.find? (fun p => p.key == key)

/-- Mutation of the row found by `get_user_profile`: the first row matching
`key` gets the new value, and the new category only when the provided
category is truthy (`if category:`). -/
def updateProfileRow (key value category : Option String) :
    List UserProfile → List UserProfile
  | [] => []
  | p :: rest =>
    if p.key == key then
      { p with value := value
               category := if truthy category then category else p.category } :: rest
    else p :: updateProfileRow key value category rest

/-- `MemoryService.update_user_profile` (upsert): if a row with the key
exists, overwrite its value (and category when truthy); otherwise insert a
new row with the given fields verbatim.  The Python method ends with one
`commit()`. -/
def update_user_profile (s : Store) (key value category : Option String) : Store :=
  match get_user_profile s key with
  | some _ => { s with profiles := updateProfileRow key value category s.profiles }
  | none => { s with profiles := s.profiles ++ [⟨key, value, category⟩] }

/-- `MemoryService.get_all_user_profiles`. -/
def get_all_user_profiles (s : Store) : List UserProfile :=
  s.profiles

/-- `MemoryService.delete_user_profile`: bulk delete by key, returning
whether at least one row was removed. -/
def delete_user_profile (s : Store) (key : String) : Store × Bool :=
  let deleted := (s.profiles.filter (fun p => p.key == some key)).length
  ({ s with profiles := s.profiles.filter (fun p => !(p.key == some key)) },
   deleted > 0)

/-- `MemoryService.get_active_goals`: goals whose status is `active`. -/
def get_active_goals (s : Store) : List Goal :=
  s.goals.filter (fun g => g.status == "active")

/-- `MemoryService.delete_goal`: bulk delete by id, returning whether at
least one row was removed. -/
def delete_goal (s : Store) (goal_id : Nat) : Store × Bool :=
  let deleted := (s.goals.filter (fun g => g.id == goal_id)).length
  ({ s with goals := s.goals.filter (fun g => !(g.id == goal_id)) },
   deleted > 0)

/-- `MemoryService.delete_conversation`: bulk delete by id, returning
whether at least one row was removed. -/
def delete_conversation (s : Store) (conversation_id : Nat) : Store × Bool :=
  let deleted := (s.conversations.filter (fun c => c.id == conversation_id)).length
  ({ s with conversations := s.conversations.filter (fun c => !(c.id == conversation_id)) },
   deleted > 0)

/-- `MemoryService.get_memory_stats`. -/
def get_memory_stats (s : Store) : Nat × Nat × Nat × Nat :=
  (s.profiles.length, s.goals.length, s.conversations.length,
   (s.goals.filter (fun g => g.status == "active")).length)

/-- One fact line of the context: `f"- {p.key}: {p.value}"`. -/
def profileLine (p : UserProfile) : String :=
  "- " ++ pyStr p.key ++ ": " ++ pyStr p.value

/-- One goal line of the context:
`f"- {g.title} {deadline}: {g.description or ''}"` where `deadline` is
`f"(Deadline: {g.deadline})"` when the goal has a deadline and the empty
string otherwise. -/
def goalLine (g : Goal) : String :=
  let deadline := match g.deadline with
    | some d => "(Deadline: " ++ d ++ ")"
    | none => ""
  "- " ++ pyStr g.title ++ " " ++ deadline ++ ": " ++ g.description.getD ""

/-- `MemoryService.construct_system_context`: header plus fact lines when
any profile exists, then (after a part that begins with a newline) header
plus goal lines when any active goal exists, all joined with newlines. -/
def construct_system_context (s : Store) : String :=
  let profiles := get_all_user_profiles s
  let goals := get_active_goals s
  let parts1 : List String :=
    if profiles.isEmpty then []
    else "## User Profile Information:" :: profiles.map profileLine
  let parts2 : List String :=
    if goals.isEmpty then []
    else "\n## Current Goals:" :: goals.map goalLine
  String.intercalate "\n" (parts1 ++ parts2)

/-- One entry of the `user_profile` array of an extraction result; each
field is what `dict.get` returns for it. -/
structure FactCandidate where
  key : Option String
  value : Option String
  category : Option String
deriving DecidableEq

/-- One entry of the `goals` array of an extraction result. -/
structure GoalCandidate where
  title : Option String
  description : Option String
  deadline : Option String
  priority : Option String
deriving DecidableEq

/-- The dict handed to `save_extracted_information`. -/
structure ExtractionResult where
  user_profile : List FactCandidate
  goals : List GoalCandidate
deriving DecidableEq

/-- Duplicate check used by `save_extracted_information`:
`Goal.title == candidate title AND Goal.status == 'active'`. -/
def goalMatches (title : Option String) (g : Goal) : Bool :=
  g.title == title && g.status == "active"

/-- The `Goal` object constructed for a non-duplicate candidate: the
deadline is not passed (left as the `TODO` in the source), so it is `None`;
status and progress come from the column defaults `active` and `0`.  The id
is assigned by the database at commit time. -/
def newGoalOf (g : GoalCandidate) : Goal :=
  { id := 0
    title := g.title
    description := g.description
    deadline := none
    priority := g.priority
    status := "active"
    progress := 0 }

/-- The fact loop of `save_extracted_information`: each candidate is passed
to `update_user_profile` (which itself commits). -/
def processFacts : Store → List FactCandidate → Store
  | s, [] => s
  | s, p :: rest => processFacts (update_user_profile s p.key p.value p.category) rest

/-- The goal loop of `save_extracted_information`: the duplicate check runs
against the committed `goals` table only (the session has `autoflush=False`,
so goal objects added earlier in the same call are not visible to the
query); non-duplicates accumulate as pending session objects. -/
def processGoals (committed : List Goal) :
    List GoalCandidate → List Goal → List Goal
  | [], pending => pending
  | g :: rest, pending =>
    match committed.find? (goalMatches g.title) with
    | some _ => processGoals committed rest pending
    | none => processGoals committed rest (pending ++ [newGoalOf g])

/-- Autoincrement id assignment performed when the pending goal inserts are
flushed by the final commit. -/
def assignIds (nextId : Nat) : List Goal → List Goal
  | [] => []
  | g :: rest => { g with id := nextId } :: assignIds (nextId + 1) rest

/-- `MemoryService.save_extracted_information`: upsert every fact candidate
(one commit each inside `update_user_profile`), then add every
non-duplicate goal candidate to the session, then commit once. -/
def save_extracted_information (s : Store) (er : ExtractionResult) : Store :=
  let s1 := processFacts s er.user_profile
  let pending := processGoals s1.goals er.goals []
  { s1 with goals := s1.goals ++ assignIds s1.nextGoalId pending
            nextGoalId := s1.nextGoalId + pending.length }

/-- The committed store states produced by the per-fact commits that
`update_user_profile` performs during one `save_extracted_information`
call, in order. -/
def factCommitStates : Store → List FactCandidate → List Store
  | _, [] => []
  | s, p :: rest =>
    let s1 := update_user_profile s p.key p.value p.category
    s1 :: factCommitStates s1 rest

/-- Every committed state during one `save_extracted_information` call, in
order: one commit per fact candidate, then the single final commit. -/
def commitStates (s : Store) (er : ExtractionResult) : List Store :=
  factCommitStates s er.user_profile ++ [save_extracted_information s er]

/-- A sequence of upserts against one key, applied in order; each element is
the (value, category) pair of one `update_user_profile` call. -/
def applyUpserts (key : Option String) :
    Store → List (Option String × Option String) → Store
  | s, [] => s
  | s, (v, c) :: rest => applyUpserts key (update_user_profile s key v c) rest

/-- Tail of a newline join: `"\n" ++ a` for each element, concatenated.
Used to state what `String.intercalate "\n"` produces. -/
def nlTail : List String → String
  | [] => ""
  | a :: rest => "\n" ++ a ++ nlTail rest

/-- Split a character list at every occurrence of a separator. -/
def splitChar (sep : Char) : List Char → List (List Char)
  | [] => [[]]
  | c :: rest =>
    if c == sep then [] :: splitChar sep rest
    else
      match splitChar sep rest with
      | [] => [[c]]
      | l :: ls => (c :: l) :: ls

/-- The lines of a string: the pieces between newline characters.  Used to
state which lines a rendered context consists of. -/
def linesOf (s : String) : List String :=
  (splitChar '\n' s.toList).map String.mk

/-! ### Extraction Engine (llm_service.py `extract_information`) -/

/-- JSON value as produced by `json.loads`.  Number literals and string
bodies are kept in validated source form: no claim inspects them, only
whether parsing succeeds. -/
inductive Json where
  | null
  | bool (b : Bool)
  | num (raw : String)
  | str (raw : String)
  | arr (elems : List Json)
  | obj (fields : List (String × Json))

/-- JSON whitespace. -/
def isWs (c : Char) : Bool :=
  c == ' ' || c == '\t' || c == '\n' || c == '\r'

/-- Drop leading JSON whitespace. -/
def skipWs : List Char → List Char
  | [] => []
  | c :: rest => if isWs c then skipWs rest else c :: rest

/-- ASCII digit. -/
def isDigit (c : Char) : Bool := '0' ≤ c && c ≤ '9'

/-- ASCII hexadecimal digit. -/
def isHex (c : Char) : Bool :=
  isDigit c || ('a' ≤ c && c ≤ 'f') || ('A' ≤ c && c ≤ 'F')

/-- Longest digit prefix and the remaining input. -/
def takeDigits : List Char → List Char × List Char
  | [] => ([], [])
  | c :: rest =>
    if isDigit c then
      let (ds, r) := takeDigits rest
      (c :: ds, r)
    else ([], c :: rest)

/-- Integer part of a JSON number: `0`, or a nonzero digit followed by
digits (leading zeros are rejected, as in Python's number regex). -/
def parseIntPart : List Char → Option (List Char × List Char)
  | [] => none
  | c :: rest =>
    if c == '0' then some ([c], rest)
    else if isDigit c then
      let (ds, r) := takeDigits rest
      some (c :: ds, r)
    else none

/-- Optional fractional part `.digits`; like the optional regex group, it
consumes nothing when absent or malformed. -/
def parseFrac : List Char → List Char × List Char
  | '.' :: c :: rest =>
    if isDigit c then
      let (ds, r) := takeDigits rest
      ('.' :: c :: ds, r)
    else ([], '.' :: c :: rest)
  | l => ([], l)

/-- Optional exponent part `[eE][+-]?digits`; consumes nothing when absent
or malformed. -/
def parseExp (l : List Char) : List Char × List Char :=
  match l with
  | c :: s :: d :: rest =>
    if (c == 'e' || c == 'E') && (s == '+' || s == '-') && isDigit d then
      let (ds, r) := takeDigits rest
      (c :: s :: d :: ds, r)
    else if (c == 'e' || c == 'E') && isDigit s then
      let (ds, r) := takeDigits (d :: rest)
      (c :: s :: ds, r)
    else ([], l)
  | c :: s :: rest =>
    if (c == 'e' || c == 'E') && isDigit s then
      let (ds, r) := takeDigits rest
      (c :: s :: ds, r)
    else ([], l)
  | _ => ([], l)

/-- A JSON number literal `-?(0|[1-9][0-9]*)(.digits)?([eE][+-]?digits)?`. -/
def parseNumber (l : List Char) : Option (Json × List Char) :=
  let (neg, l1) : List Char × List Char :=
    match l with
    | '-' :: rest => (['-'], rest)
    | _ => ([], l)
  match parseIntPart l1 with
  | none => none
  | some (ip, l2) =>
    let (fp, l3) := parseFrac l2
    let (ep, l4) := parseExp l3
    some (Json.num (String.mk (neg ++ ip ++ fp ++ ep)), l4)

/-- Body of a JSON string after the opening quote: escapes are validated
(simple escapes and `u` followed by four hex digits) and raw control
characters are rejected, as in Python's strict mode; the body is kept in
source form. -/
def parseStringBody (acc : List Char) : List Char → Option (String × List Char)
  | [] => none
  | '"' :: rest => some (String.mk acc.reverse, rest)
  | '\\' :: e :: rest =>
    if e == '"' || e == '\\' || e == '/' || e == 'b' || e == 'f' ||
        e == 'n' || e == 'r' || e == 't' then
      parseStringBody (e :: '\\' :: acc) rest
    else if e == 'u' then
      match rest with
      | h1 :: h2 :: h3 :: h4 :: rest2 =>
        if isHex h1 && isHex h2 && isHex h3 && isHex h4 then
          parseStringBody (h4 :: h3 :: h2 :: h1 :: 'u' :: '\\' :: acc) rest2
        else none
      | _ => none
    else none
  | c :: rest =>
    if c.toNat < 32 then none
    else parseStringBody (c :: acc) rest

/-- Match a literal keyword tail. -/
def expectLit : List Char → List Char → Option (List Char)
  | [], rest => some rest
  | c :: cs, d :: rest => if c == d then expectLit cs rest else none
  | _ :: _, [] => none

mutual

/-- One JSON value, fuelled; mirrors Python's `json.loads` grammar
(including its default acceptance of `NaN`, `Infinity` and `-Infinity`). -/
def parseValue : Nat → List Char → Option (Json × List Char)
  | 0, _ => none
  | fuel + 1, l =>
    match skipWs l with
    | [] => none
    | c :: rest =>
      if c == 'n' then (expectLit ['u', 'l', 'l'] rest).map (fun r => (Json.null, r))
      else if c == 't' then (expectLit ['r', 'u', 'e'] rest).map (fun r => (Json.bool true, r))
      else if c == 'f' then (expectLit ['a', 'l', 's', 'e'] rest).map (fun r => (Json.bool false, r))
      else if c == 'N' then (expectLit ['a', 'N'] rest).map (fun r => (Json.num "NaN", r))
      else if c == 'I' then
        (expectLit ['n', 'f', 'i', 'n', 'i', 't', 'y'] rest).map (fun r => (Json.num "Infinity", r))
      else if c == '-' then
        match rest with
        | 'I' :: rest2 =>
          (expectLit ['n', 'f', 'i', 'n', 'i', 't', 'y'] rest2).map
            (fun r => (Json.num "-Infinity", r))
        | _ => parseNumber (c :: rest)
      else if c == '"' then (parseStringBody [] rest).map (fun p => (Json.str p.1, p.2))
      else if c == '[' then
        match skipWs rest with
        | ']' :: r => some (Json.arr [], r)
        | l2 => parseElems fuel l2 []
      else if c == '{' then
        match skipWs rest with
        | '}' :: r => some (Json.obj [], r)
        | l2 => parseFields fuel l2 []
      else if isDigit c then parseNumber (c :: rest)
      else none

/-- Elements of a JSON array after the opening bracket. -/
def parseElems : Nat → List Char → List Json → Option (Json × List Char)
  | 0, _, _ => none
  | fuel + 1, l, acc =>
    match parseValue fuel l with
    | none => none
    | some (v, r) =>
      match skipWs r with
      | ',' :: r2 => parseElems fuel r2 (acc ++ [v])
      | ']' :: r2 => some (Json.arr (acc ++ [v]), r2)
      | _ => none

/-- Fields of a JSON object after the opening brace. -/
def parseFields : Nat → List Char → List (String × Json) → Option (Json × List Char)
  | 0, _, _ => none
  | fuel + 1, l, acc =>
    match skipWs l with
    | '"' :: r =>
      match parseStringBody [] r with
      | none => none
      | some (k, r2) =>
        match skipWs r2 with
        | ':' :: r3 =>
          match parseValue fuel r3 with
          | none => none
          | some (v, r4) =>
            match skipWs r4 with
            | ',' :: r5 => parseFields fuel r5 (acc ++ [(k, v)])
            | '}' :: r5 => some (Json.obj (acc ++ [(k, v)]), r5)
            | _ => none
        | _ => none
    | _ => none

end

/-- Model of Python `json.loads`: leading whitespace, exactly one JSON
value, trailing whitespace, nothing else; `none` models the raised
`JSONDecodeError`. -/
def jsonLoads (s : String) : Option Json :=
  let l := s.toList
  match parseValue (3 * l.length + 3) l with
  | none => none
  | some (v, rest) => if (skipWs rest).isEmpty then some v else none

/-- Outcome of the external `ollama.chat` call inside
`extract_information`: the call either raises or returns a content text. -/
inductive CallOutcome where
  | raises (msg : String)
  | returns (content : String)

/-- The dict literal returned by the `except` branch of
`extract_information`. -/
def emptyExtraction : Json :=
  Json.obj [("user_profile", Json.arr []), ("goals", Json.arr [])]

/-- `LLMService.extract_information`: the whole body is wrapped in
`try/except Exception`, so an exception from the model call or from
`json.loads` is swallowed and the empty extraction dict is returned; a
successfully parsed document is returned as is. -/
def extract_information (outcome : CallOutcome) : Json :=
  match outcome with
  | CallOutcome.raises _ => emptyExtraction
  | CallOutcome.returns content =>
    match jsonLoads content with
    | none => emptyExtraction
    | some j => j

/-! ### Concrete fixtures used by counterexamples and witnesses -/

/-- A fresh, empty database. -/
def emptyStore : Store :=
  { profiles := [], goals := [], conversations := [], nextGoalId := 1 }

/-- Store holding the single fact name=Alice. -/
def aliceStore : Store :=
  { emptyStore with profiles := [⟨some "name", some "Alice", none⟩] }

/-- An active goal titled Learn X with description basics and no
deadline. -/
def learnXGoal : Goal :=
  { id := 1, title := some "Learn X", description := some "basics",
    deadline := none, priority := none, status := "active", progress := 0 }

/-- Store holding only `learnXGoal`. -/
def learnXStore : Store :=
  { emptyStore with goals := [learnXGoal], nextGoalId := 2 }

/-- Store holding one fact whose category is `food`. -/
def catStore : Store :=
  { emptyStore with profiles := [⟨some "k", some "v", some "food"⟩] }

/-- Extraction result with two well-formed fact candidates. -/
def erTwoFacts : ExtractionResult :=
  { user_profile := [⟨some "name", some "Alice", some "personal"⟩,
                     ⟨some "hobby", some "chess", none⟩],
    goals := [] }

/-- Extraction result whose only fact candidate has no key, no value and
no category (a malformed entry per the extraction JSON schema). -/
def erMalformed : ExtractionResult :=
  { user_profile := [⟨none, none, none⟩], goals := [] }

/-- Extraction result with one goal candidate titled Learn Python. -/
def erLearnPython : ExtractionResult :=
  { user_profile := [], goals := [⟨some "Learn Python", none, none, none⟩] }

/-- Extraction result with one goal candidate whose title matches
`learnXGoal`. -/
def erLearnX : ExtractionResult :=
  { user_profile := [], goals := [⟨some "Learn X", some "more basics", none, none⟩] }

/-- Extraction result whose goal candidate carries a deadline string. -/
def erDeadline : ExtractionResult :=
  { user_profile := [],
    goals := [⟨some "Learn Python", some "study", some "December", some "high"⟩] }

/-- The goal row stored for `erDeadline`'s candidate. -/
def learnPythonGoal : Goal :=
  { id := 1, title := some "Learn Python", description := some "study",
    deadline := none, priority := some "high", status := "active", progress := 0 }

/-- Extraction result with two goal candidates sharing one title. -/
def erDupTitles : ExtractionResult :=
  { user_profile := [],
    goals := [⟨some "run a marathon", some "first", none, none⟩,
              ⟨some "run a marathon", some "second", none, none⟩] }

/-- A mixed batch against `learnXStore`: the first goal candidate's title
matches the existing active goal, the second is fresh. -/
def erMixed : ExtractionResult :=
  { user_profile := [],
    goals := [⟨some "Learn X", some "again", none, none⟩,
              ⟨some "new goal", none, none, none⟩] }

/-! ### NOT NULL enforcement (database.py schema)

`user_profile.key` (the primary key) and `user_profile.value` are declared
`Mapped[str]` — NOT NULL columns — and so is `goals.title`; `category`,
`description`, `deadline` and `priority` are `Mapped[Optional[...]]` and
nullable.  A flush that writes NULL into a NOT NULL column raises
`IntegrityError` and commits nothing.  The `_db` functions below model this
commit-time behavior; the plain functions above describe the session state
the service code builds, which coincides with the committed state whenever
every written row satisfies the schema. -/

/-- The NOT NULL columns of a `user_profile` row: `key` and `value`. -/
def profileRowOk (p : UserProfile) : Bool :=
  p.key.isSome && p.value.isSome

/-- The NOT NULL column of a `goals` row that consolidation can set to
NULL: `title` (status and progress always get their defaults). -/
def goalRowOk (g : Goal) : Bool :=
  g.title.isSome

/-- The error `db.commit()` raises on a NOT NULL violation. -/
def integrityError : String :=
  "IntegrityError: NOT NULL constraint failed"

/-- `update_user_profile` including its final `db.commit()` against the
real schema: the commit persists the new row state unless a written row
violates a NOT NULL column, in which case `IntegrityError` is raised and
nothing is persisted. -/
def update_user_profile_db (s : Store) (key value category : Option String) :
    Except String Store :=
  let s1 := update_user_profile s key value category
  if s1.profiles.all profileRowOk then Except.ok s1
  else Except.error integrityError

/-- The fact loop of `save_extracted_information` over the committing
upsert: the first failing commit aborts the loop; the error carries the
last successfully committed state. -/
def processFacts_db : Store → List FactCandidate → Except (String × Store) Store
  | s, [] => Except.ok s
  | s, p :: rest =>
    match update_user_profile_db s p.key p.value p.category with
    | Except.ok s1 => processFacts_db s1 rest
    | Except.error e => Except.error (e, s)

/-- `save_extracted_information` against the real schema: each fact upsert
commits individually (raising `IntegrityError` on a NOT NULL violation and
keeping the previously committed state), and the final commit flushes the
pending goal inserts, raising if one has a NULL title. -/
def save_extracted_information_db (s : Store) (er : ExtractionResult) :
    Except (String × Store) Store :=
  match processFacts_db s er.user_profile with
  | Except.error es => Except.error es
  | Except.ok s1 =>
    let pending := processGoals s1.goals er.goals []
    if pending.all goalRowOk then
      Except.ok { s1 with goals := s1.goals ++ assignIds s1.nextGoalId pending
                          nextGoalId := s1.nextGoalId + pending.length }
    else Except.error (integrityError, s1)

/-- A batch whose first fact candidate is malformed (no key, no value) and
whose second is well-formed. -/
def erMalformedBatch : ExtractionResult :=
  { user_profile := [⟨none, none, none⟩, ⟨some "name", some "Alice", none⟩],
    goals := [] }

/-! ### Helper lemmas -/

theorem str_append_assoc (a b c : String) : a ++ b ++ c = a ++ (b ++ c) := by
  apply String.ext
  simp

theorem str_append_empty (a : String) : a ++ "" = a := by
  apply String.ext
  simp

theorem str_empty_append (a : String) : "" ++ a = a := by
  apply String.ext
  simp

theorem intercalate_go_eq (as : List String) :
    ∀ acc : String, String.intercalate.go acc "\n" as = acc ++ nlTail as := by
  induction as with
  | nil =>
    intro acc
    rw [String.intercalate.go, nlTail, str_append_empty]
  | cons a as ih =>
    intro acc
    rw [String.intercalate.go, ih, nlTail]
    rw [str_append_assoc, str_append_assoc, str_append_assoc]

theorem intercalate_nl_cons (a : String) (as : List String) :
    String.intercalate "\n" (a :: as) = a ++ nlTail as := by
  rw [String.intercalate, intercalate_go_eq]

theorem nlTail_append (l1 l2 : List String) :
    nlTail (l1 ++ l2) = nlTail l1 ++ nlTail l2 := by
  induction l1 with
  | nil => rw [List.nil_append, nlTail, str_empty_append]
  | cons a l1 ih =>
    rw [List.cons_append, nlTail, nlTail, ih]
    simp only [str_append_assoc]

/-! ### Theorems about the claims -/

/-- C8: `construct_system_context` on a store with no facts and no active
goals returns the empty string; on a store with exactly one fact
name=Alice and no active goals, its output contains the line
`- name: Alice` and no goals section. -/
theorem context_empty_store_and_single_fact :
    (∀ s : Store, s.profiles = [] → get_active_goals s = [] →
        construct_system_context s = "") ∧
    (∀ s : Store, s.profiles = [⟨some "name", some "Alice", none⟩] →
        get_active_goals s = [] →
        construct_system_context s = "## User Profile Information:\n- name: Alice" ∧
        "- name: Alice" ∈ linesOf (construct_system_context s) ∧
        "## Current Goals:" ∉ linesOf (construct_system_context s)) := by
  constructor
  · intro s h1 h2
    simp only [construct_system_context, get_all_user_profiles, h1, h2]
    rfl
  · intro s h1 h2
    have hctx : construct_system_context s
        = "## User Profile Information:\n- name: Alice" := by
      simp only [construct_system_context, get_all_user_profiles, h1, h2]
      rfl
    refine ⟨hctx, ?_, ?_⟩ <;> rw [hctx] <;> decide

/-- Witness for C8 at the two concrete stores. -/
theorem context_empty_store_and_single_fact_witness :
    construct_system_context emptyStore = "" ∧
    construct_system_context aliceStore
      = "## User Profile Information:\n- name: Alice" :=
  ⟨context_empty_store_and_single_fact.1 emptyStore rfl rfl,
   (context_empty_store_and_single_fact.2 aliceStore rfl rfl).1⟩

/-- C10: deleting a fact key, goal id or conversation id that is absent
from the store reports not-found (`false`) instead of throwing and leaves
the store (hence every count) unchanged. -/
theorem delete_missing_identity_not_found :
    (∀ (s : Store) (key : String), (∀ p ∈ s.profiles, p.key ≠ some key) →
        delete_user_profile s key = (s, false) ∧
        get_memory_stats (delete_user_profile s key).1 = get_memory_stats s) ∧
    (∀ (s : Store) (i : Nat), (∀ g ∈ s.goals, g.id ≠ i) →
        delete_goal s i = (s, false) ∧
        get_memory_stats (delete_goal s i).1 = get_memory_stats s) ∧
    (∀ (s : Store) (i : Nat), (∀ c ∈ s.conversations, c.id ≠ i) →
        delete_conversation s i = (s, false) ∧
        get_memory_stats (delete_conversation s i).1 = get_memory_stats s) := by
  refine ⟨?_, ?_, ?_⟩
  · intro s key h
    have heq : delete_user_profile s key = (s, false) := by
      have hmatch : s.profiles.filter (fun p => p.key == some key) = [] := by
        rw [List.filter_eq_nil_iff]
        intro p hp
        simpa using h p hp
      have hkeep : s.profiles.filter (fun p => !(p.key == some key)) = s.profiles := by
        rw [List.filter_eq_self]
        intro p hp
        simpa using h p hp
      simp [delete_user_profile, hmatch, hkeep]
    exact ⟨heq, by rw [heq]⟩
  · intro s i h
    have heq : delete_goal s i = (s, false) := by
      have hmatch : s.goals.filter (fun g => g.id == i) = [] := by
        rw [List.filter_eq_nil_iff]
        intro g hg
        simpa using h g hg
      have hkeep : s.goals.filter (fun g => !(g.id == i)) = s.goals := by
        rw [List.filter_eq_self]
        intro g hg
        simpa using h g hg
      simp [delete_goal, hmatch, hkeep]
    exact ⟨heq, by rw [heq]⟩
  · intro s i h
    have heq : delete_conversation s i = (s, false) := by
      have hmatch : s.conversations.filter (fun c => c.id == i) = [] := by
        rw [List.filter_eq_nil_iff]
        intro c hc
        simpa using h c hc
      have hkeep : s.conversations.filter (fun c => !(c.id == i)) = s.conversations := by
        rw [List.filter_eq_self]
        intro c hc
        simpa using h c hc
      simp [delete_conversation, hmatch, hkeep]
    exact ⟨heq, by rw [heq]⟩

/-- Witness for C10 at concrete stores and absent identities. -/
theorem delete_missing_identity_not_found_witness :
    delete_user_profile aliceStore "hobby" = (aliceStore, false) ∧
    delete_goal learnXStore 99 = (learnXStore, false) ∧
    delete_conversation emptyStore 1 = (emptyStore, false) :=
  ⟨(delete_missing_identity_not_found.1 aliceStore "hobby" (by decide)).1,
   (delete_missing_identity_not_found.2.1 learnXStore 99 (by decide)).1,
   (delete_missing_identity_not_found.2.2 emptyStore 1 (by decide)).1⟩

theorem find_updateProfileRow (k v c : Option String) :
    ∀ (l : List UserProfile) (p : UserProfile),
      l.find? (fun q => q.key == k) = some p →
      (updateProfileRow k v c l).find? (fun q => q.key == k)
        = some ⟨k, v, if truthy c then c else p.category⟩ := by
  intro l
  induction l with
  | nil => intro p hp; simp at hp
  | cons q rest ih =>
    intro p hp
    by_cases hq : (q.key == k) = true
    · rw [List.find?_cons_of_pos rest hq] at hp
      cases hp
      have hk : q.key = k := eq_of_beq hq
      subst hk
      rw [updateProfileRow, if_pos hq]
      simp [List.find?_cons, hq]
    · rw [List.find?_cons_of_neg rest hq] at hp
      have hq' : (q.key == k) = false := by simpa using hq
      rw [updateProfileRow, if_neg hq]
      simp only [List.find?_cons, hq', if_false]
      exact ih p hp

theorem find_append_single (l : List UserProfile) (x : UserProfile)
    (h : l.find? (fun q => q.key == x.key) = none) :
    (l ++ [x]).find? (fun q => q.key == x.key) = some x := by
  rw [List.find?_append, h]
  simp

theorem get_after_update_existing (s : Store) (k v c : Option String) (p : UserProfile)
    (h : get_user_profile s k = some p) :
    get_user_profile (update_user_profile s k v c) k
      = some ⟨k, v, if truthy c then c else p.category⟩ := by
  rw [update_user_profile, h]
  exact find_updateProfileRow k v c s.profiles p h

theorem get_after_update_absent (s : Store) (k v c : Option String)
    (h : get_user_profile s k = none) :
    update_user_profile s k v c = { s with profiles := s.profiles ++ [⟨k, v, c⟩] } ∧
    get_user_profile (update_user_profile s k v c) k = some ⟨k, v, c⟩ := by
  have heq : update_user_profile s k v c
      = { s with profiles := s.profiles ++ [⟨k, v, c⟩] } := by
    rw [update_user_profile, h]
  refine ⟨heq, ?_⟩
  rw [heq]
  exact find_append_single s.profiles ⟨k, v, c⟩ h

theorem get_after_update (s : Store) (k v c : Option String) :
    ∃ cat, get_user_profile (update_user_profile s k v c) k = some ⟨k, v, cat⟩ := by
  cases h : get_user_profile s k with
  | none => exact ⟨c, (get_after_update_absent s k v c h).2⟩
  | some p => exact ⟨_, get_after_update_existing s k v c p h⟩

theorem applyUpserts_append (k : Option String) :
    ∀ (l1 l2 : List (Option String × Option String)) (s : Store),
      applyUpserts k s (l1 ++ l2) = applyUpserts k (applyUpserts k s l1) l2 := by
  intro l1
  induction l1 with
  | nil => intro l2 s; rfl
  | cons vc l1 ih =>
    intro l2 s
    cases vc with
    | mk v c => rw [List.cons_append, applyUpserts, applyUpserts]; exact ih l2 _

/-- C4 (amended): a sequence of upserts on one key is last-write-wins for
the value: after the N-th upsert the stored value is the N-th value.  On an
existing key the value is always overwritten and the category is
overwritten exactly when the provided category is truthy (non-None and
non-empty — an explicitly provided empty string is treated like an absent
category and the existing category is retained); on an absent key a new
fact is inserted with the provided fields verbatim. -/
theorem fact_upsert_last_write_wins :
    (∀ (s : Store) (k : Option String) (ups : List (Option String × Option String))
        (v c : Option String),
        ∃ cat, get_user_profile (applyUpserts k s (ups ++ [(v, c)])) k
          = some ⟨k, v, cat⟩) ∧
    (∀ (s : Store) (k v c : Option String) (p : UserProfile),
        get_user_profile s k = some p →
        get_user_profile (update_user_profile s k v c) k
          = some ⟨k, v, if truthy c then c else p.category⟩) ∧
    (∀ (s : Store) (k v c : Option String),
        get_user_profile s k = none →
        (update_user_profile s k v c).profiles = s.profiles ++ [⟨k, v, c⟩] ∧
        get_user_profile (update_user_profile s k v c) k = some ⟨k, v, c⟩) := by
  refine ⟨?_, ?_, ?_⟩
  · intro s k ups v c
    rw [applyUpserts_append]
    exact get_after_update (applyUpserts k s ups) k v c
  · exact fun s k v c p h => get_after_update_existing s k v c p h
  · intro s k v c h
    exact ⟨by rw [(get_after_update_absent s k v c h).1],
           (get_after_update_absent s k v c h).2⟩

/-- C4 counterexample: on an existing key, an upsert that explicitly
provides the empty-string category retains the old category instead of
storing the provided one, refuting "category overwritten if a category is
provided" for this input. -/
theorem provided_empty_category_retained_counterexample :
    (update_user_profile catStore (some "k") (some "w") (some "")).profiles
      = [⟨some "k", some "w", some "food"⟩] ∧
    get_user_profile (update_user_profile catStore (some "k") (some "w") (some ""))
        (some "k")
      ≠ some ⟨some "k", some "w", some ""⟩ := by
  exact ⟨by decide, by decide⟩

/-- Witness for C4 at a concrete store: upserting an existing key with a
truthy category overwrites both value and category. -/
theorem fact_upsert_last_write_wins_witness :
    get_user_profile
        (update_user_profile aliceStore (some "name") (some "Bob") (some "personal"))
        (some "name")
      = some ⟨some "name", some "Bob", some "personal"⟩ :=
  fact_upsert_last_write_wins.2.1 aliceStore (some "name") (some "Bob")
    (some "personal") ⟨some "name", some "Alice", none⟩ (by decide)

/-- C2 (amended): for every store with at least one active goal, the goals
section renders one line per active goal using the template
`- {title} {(Deadline: deadline) if present}: {description or empty}` — a
goal with no deadline yields `- Learn X : basics` (empty deadline segment,
single space before the colon, no parentheses), not `- Learn X (): basics`. -/
theorem active_goals_render_one_line_each (s : Store)
    (h : get_active_goals s ≠ []) :
    construct_system_context s
      = (if s.profiles.isEmpty then ""
         else "## User Profile Information:"
                ++ nlTail (s.profiles.map profileLine) ++ "\n")
        ++ "\n## Current Goals:"
        ++ nlTail ((get_active_goals s).map goalLine) ∧
    (∀ g : Goal, g.deadline = none →
        goalLine g = "- " ++ pyStr g.title ++ " : " ++ g.description.getD "") := by
  constructor
  · cases hal : get_active_goals s with
    | nil => exact absurd hal h
    | cons a as =>
      cases hpl : s.profiles with
      | nil =>
        simp only [construct_system_context, get_all_user_profiles, hal, hpl,
          List.isEmpty_nil, List.isEmpty_cons, if_true, Bool.false_eq_true, if_false,
          List.nil_append, intercalate_nl_cons, nlTail, str_empty_append,
          str_append_assoc]
      | cons p ps =>
        simp only [construct_system_context, get_all_user_profiles, hal, hpl,
          List.isEmpty_cons, Bool.false_eq_true, if_false, List.cons_append,
          List.append_eq, intercalate_nl_cons, nlTail_append, nlTail,
          str_append_assoc]
  · intro g hd
    apply String.ext
    simp [goalLine, hd]

/-- C2 counterexample: the claim's concrete store (one active goal titled
Learn X, description basics, no deadline) renders the goal line as
`- Learn X : basics`; the claimed line `- Learn X (): basics` with empty
parentheses occurs nowhere in the output. -/
theorem empty_deadline_parentheses_counterexample :
    construct_system_context learnXStore
      = "\n## Current Goals:\n- Learn X : basics" ∧
    "- Learn X (): basics" ∉ linesOf (construct_system_context learnXStore) ∧
    "- Learn X : basics" ∈ linesOf (construct_system_context learnXStore) := by
  refine ⟨rfl, by decide, by decide⟩

/-- Witness for C2 at the concrete one-goal store. -/
theorem active_goals_render_one_line_each_witness :
    construct_system_context learnXStore
      = (if learnXStore.profiles.isEmpty then ""
         else "## User Profile Information:"
                ++ nlTail (learnXStore.profiles.map profileLine) ++ "\n")
        ++ "\n## Current Goals:"
        ++ nlTail ((get_active_goals learnXStore).map goalLine) :=
  (active_goals_render_one_line_each learnXStore (by decide)).1

theorem update_user_profile_nonprofile (s : Store) (k v c : Option String) :
    (update_user_profile s k v c).goals = s.goals ∧
    (update_user_profile s k v c).conversations = s.conversations ∧
    (update_user_profile s k v c).nextGoalId = s.nextGoalId := by
  cases h : get_user_profile s k <;> simp [update_user_profile, h]

theorem processFacts_nonprofile (l : List FactCandidate) :
    ∀ s : Store, (processFacts s l).goals = s.goals ∧
      (processFacts s l).nextGoalId = s.nextGoalId := by
  induction l with
  | nil => intro s; exact ⟨rfl, rfl⟩
  | cons p rest ih =>
    intro s
    rw [processFacts]
    constructor
    · rw [(ih _).1, (update_user_profile_nonprofile s p.key p.value p.category).1]
    · rw [(ih _).2, (update_user_profile_nonprofile s p.key p.value p.category).2.2]

theorem factCommitStates_length (l : List FactCandidate) :
    ∀ s : Store, (factCommitStates s l).length = l.length := by
  induction l with
  | nil => intro s; rfl
  | cons p rest ih =>
    intro s
    simp only [factCommitStates, List.length_cons, ih]

theorem factCommitStates_goals (l : List FactCandidate) :
    ∀ (s : Store), ∀ st ∈ factCommitStates s l,
      st.goals = s.goals ∧ st.nextGoalId = s.nextGoalId := by
  induction l with
  | nil => intro s st hst; simp [factCommitStates] at hst
  | cons p rest ih =>
    intro s st hst
    simp only [factCommitStates, List.mem_cons] at hst
    rcases hst with rfl | hst
    · exact ⟨(update_user_profile_nonprofile s p.key p.value p.category).1,
             (update_user_profile_nonprofile s p.key p.value p.category).2.2⟩
    · have h2 := ih (update_user_profile s p.key p.value p.category) st hst
      exact ⟨h2.1.trans (update_user_profile_nonprofile s p.key p.value p.category).1,
             h2.2.trans (update_user_profile_nonprofile s p.key p.value p.category).2.2⟩

theorem processGoals_mem_pending (c : List Goal) :
    ∀ (gs : List GoalCandidate) (pending : List Goal) (x : Goal),
      x ∈ pending → x ∈ processGoals c gs pending := by
  intro gs
  induction gs with
  | nil => intro pending x hx; exact hx
  | cons g rest ih =>
    intro pending x hx
    rw [processGoals]
    cases hf : c.find? (goalMatches g.title) with
    | some w => exact ih pending x hx
    | none => exact ih _ x (List.mem_append_left _ hx)

theorem processGoals_all (c : List Goal) (Q : Goal → Prop)
    (hnew : ∀ g : GoalCandidate, Q (newGoalOf g)) :
    ∀ (gs : List GoalCandidate) (pending : List Goal),
      (∀ x ∈ pending, Q x) → ∀ x ∈ processGoals c gs pending, Q x := by
  intro gs
  induction gs with
  | nil => intro pending hp x hx; exact hp x hx
  | cons g rest ih =>
    intro pending hp x hx
    rw [processGoals] at hx
    cases hf : c.find? (goalMatches g.title) with
    | some w =>
      rw [hf] at hx
      exact ih pending hp x hx
    | none =>
      rw [hf] at hx
      refine ih _ ?_ x hx
      intro y hy
      rcases List.mem_append.mp hy with hy | hy
      · exact hp y hy
      · rw [List.mem_singleton.mp hy]
        exact hnew g

theorem processGoals_eq_pending_of_match (c : List Goal) :
    ∀ (gs : List GoalCandidate) (pending : List Goal),
      (∀ g ∈ gs, (c.find? (goalMatches g.title)).isSome) →
      processGoals c gs pending = pending := by
  intro gs
  induction gs with
  | nil => intro pending _; rfl
  | cons g rest ih =>
    intro pending hall
    rw [processGoals]
    cases hf : c.find? (goalMatches g.title) with
    | some w => exact ih pending (fun q hq => hall q (List.mem_cons_of_mem _ hq))
    | none =>
      have hsome := hall g (List.mem_cons_self _ _)
      rw [hf] at hsome
      simp at hsome

theorem processGoals_coverage (c : List Goal) :
    ∀ (gs : List GoalCandidate) (pending : List Goal) (g : GoalCandidate),
      g ∈ gs →
      (∃ x ∈ c, goalMatches g.title x = true) ∨
      (∃ x ∈ processGoals c gs pending, goalMatches g.title x = true) := by
  intro gs
  induction gs with
  | nil => intro pending g hg; simp at hg
  | cons g0 rest ih =>
    intro pending g hg
    rcases List.mem_cons.mp hg with rfl | hg
    · cases hf : c.find? (goalMatches g.title) with
      | some w =>
        exact Or.inl ⟨w, List.mem_of_find?_eq_some hf, List.find?_some hf⟩
      | none =>
        right
        rw [processGoals, hf]
        refine ⟨newGoalOf g,
          processGoals_mem_pending c rest _ _
            (List.mem_append_right _ (List.mem_singleton.mpr rfl)), ?_⟩
        simp [goalMatches, newGoalOf]
    · cases hf : c.find? (goalMatches g0.title) with
      | some w =>
        rcases ih pending g hg with hc | hc
        · exact Or.inl hc
        · right
          rw [processGoals, hf]
          exact hc
      | none =>
        rcases ih (pending ++ [newGoalOf g0]) g hg with hc | hc
        · exact Or.inl hc
        · right
          rw [processGoals, hf]
          exact hc

theorem assignIds_all (Q : Goal → Prop)
    (hQ : ∀ (y : Goal) (i : Nat), Q y → Q { y with id := i }) :
    ∀ (l : List Goal) (n : Nat), (∀ y ∈ l, Q y) → ∀ x ∈ assignIds n l, Q x := by
  intro l
  induction l with
  | nil => intro n hl x hx; simp [assignIds] at hx
  | cons y rest ih =>
    intro n hl x hx
    rw [assignIds] at hx
    rcases List.mem_cons.mp hx with rfl | hx
    · exact hQ y n (hl y (List.mem_cons_self _ _))
    · exact ih (n + 1) (fun z hz => hl z (List.mem_cons_of_mem _ hz)) x hx

theorem assignIds_exists (t : Option String) :
    ∀ (l : List Goal) (n : Nat),
      (∃ x ∈ l, goalMatches t x = true) →
      ∃ x ∈ assignIds n l, goalMatches t x = true := by
  intro l
  induction l with
  | nil => intro n h; simp at h
  | cons y rest ih =>
    intro n h
    rcases h with ⟨x, hx, hm⟩
    rw [assignIds]
    rcases List.mem_cons.mp hx with rfl | hx
    · exact ⟨{ x with id := n }, List.mem_cons_self _ _, hm⟩
    · rcases ih (n + 1) ⟨x, hx, hm⟩ with ⟨z, hz, hmz⟩
      exact ⟨z, List.mem_cons_of_mem _ hz, hmz⟩

theorem save_goals_eq (s : Store) (er : ExtractionResult) :
    (save_extracted_information s er).goals
      = s.goals ++ assignIds s.nextGoalId (processGoals s.goals er.goals []) ∧
    (save_extracted_information s er).profiles
      = (processFacts s er.user_profile).profiles := by
  have h1 := processFacts_nonprofile er.user_profile s
  constructor
  · simp only [save_extracted_information]
    rw [h1.1, h1.2]
  · rfl

theorem goals_unchanged_of_all_match (s : Store) (er : ExtractionResult)
    (h : ∀ g ∈ er.goals, ∃ gl ∈ s.goals, goalMatches g.title gl = true) :
    (save_extracted_information s er).goals = s.goals := by
  have hmatch : ∀ g ∈ er.goals, (s.goals.find? (goalMatches g.title)).isSome := by
    intro g hg
    rw [List.find?_isSome]
    rcases h g hg with ⟨gl, hgl, hm⟩
    exact ⟨gl, hgl, hm⟩
  rw [(save_goals_eq s er).1, processGoals_eq_pending_of_match s.goals er.goals [] hmatch]
  simp [assignIds]

theorem save_covers (s : Store) (er : ExtractionResult) :
    ∀ g ∈ er.goals, ∃ gl ∈ (save_extracted_information s er).goals,
      goalMatches g.title gl = true := by
  intro g hg
  rcases processGoals_coverage s.goals er.goals [] g hg with ⟨x, hx, hm⟩ | ⟨x, hx, hm⟩
  · exact ⟨x, by rw [(save_goals_eq s er).1]; exact List.mem_append_left _ hx, hm⟩
  · rcases assignIds_exists g.title (processGoals s.goals er.goals []) s.nextGoalId
      ⟨x, hx, hm⟩ with ⟨z, hz, hmz⟩
    exact ⟨z, by rw [(save_goals_eq s er).1]; exact List.mem_append_right _ hz, hmz⟩

theorem processGoals_eq_filter (c : List Goal) :
    ∀ (gs : List GoalCandidate) (pending : List Goal),
      processGoals c gs pending
        = pending ++ (gs.filter
            (fun g => (c.find? (goalMatches g.title)).isNone)).map newGoalOf := by
  intro gs
  induction gs with
  | nil => intro pending; simp [processGoals]
  | cons g rest ih =>
    intro pending
    rw [processGoals]
    cases hf : c.find? (goalMatches g.title) with
    | some w =>
      rw [ih pending]
      simp [List.filter_cons, hf]
    | none =>
      rw [ih (pending ++ [newGoalOf g])]
      simp [List.filter_cons, hf]

theorem get_none_of_valid (s : Store)
    (h : s.profiles.all profileRowOk = true) :
    get_user_profile s none = none := by
  rw [get_user_profile, List.find?_eq_none]
  intro p hp
  have hok := List.all_eq_true.mp h p hp
  cases hk : p.key with
  | none => rw [profileRowOk, hk] at hok; simp at hok
  | some w => simp [hk]

theorem updateRow_none_invalid (k c : Option String) :
    ∀ (l : List UserProfile) (p : UserProfile),
      l.find? (fun q => q.key == k) = some p →
      (updateProfileRow k none c l).all profileRowOk = false := by
  intro l
  induction l with
  | nil => intro p hp; simp at hp
  | cons q rest ih =>
    intro p hp
    by_cases hq : (q.key == k) = true
    · rw [updateProfileRow, if_pos hq]
      simp [List.all_cons, profileRowOk]
    · rw [List.find?_cons_of_neg rest hq] at hp
      rw [updateProfileRow, if_neg hq]
      simp [List.all_cons, ih p hp]

theorem update_db_error_of_invalid (s : Store) (k v c : Option String)
    (hs : s.profiles.all profileRowOk = true)
    (hbad : k.isNone = true ∨ v.isNone = true) :
    update_user_profile_db s k v c = Except.error integrityError := by
  have hfalse : (update_user_profile s k v c).profiles.all profileRowOk = false := by
    rcases hbad with hk | hv
    · have hk2 : k = none := Option.isNone_iff_eq_none.mp hk
      subst hk2
      rw [update_user_profile, get_none_of_valid s hs]
      simp [List.all_append, profileRowOk]
    · have hv2 : v = none := Option.isNone_iff_eq_none.mp hv
      subst hv2
      cases hf : get_user_profile s k with
      | none =>
        rw [update_user_profile, hf]
        simp [List.all_append, profileRowOk]
      | some p =>
        rw [update_user_profile, hf]
        exact updateRow_none_invalid k c s.profiles p hf
  simp only [update_user_profile_db]
  simp [hfalse]

theorem updateRow_valid (k v c : Option String) (hv : v.isSome = true) :
    ∀ l : List UserProfile, l.all profileRowOk = true →
      (updateProfileRow k v c l).all profileRowOk = true := by
  intro l
  induction l with
  | nil => intro h; exact h
  | cons q rest ih =>
    intro h
    simp only [List.all_cons, Bool.and_eq_true] at h
    have hkey : q.key.isSome = true := by
      have := h.1
      rw [profileRowOk, Bool.and_eq_true] at this
      exact this.1
    by_cases hq : (q.key == k) = true
    · rw [updateProfileRow, if_pos hq]
      simp [List.all_cons, profileRowOk, hkey, hv, h.2]
    · rw [updateProfileRow, if_neg hq]
      simp [List.all_cons, h.1, ih h.2]

theorem update_valid (s : Store) (k v c : Option String)
    (hs : s.profiles.all profileRowOk = true)
    (hk : k.isSome = true) (hv : v.isSome = true) :
    (update_user_profile s k v c).profiles.all profileRowOk = true := by
  cases hf : get_user_profile s k with
  | some p =>
    rw [update_user_profile, hf]
    exact updateRow_valid k v c hv s.profiles hs
  | none =>
    rw [update_user_profile, hf]
    simp [List.all_append, profileRowOk, hs, hk, hv]

theorem update_db_ok (s : Store) (k v c : Option String)
    (hs : s.profiles.all profileRowOk = true)
    (hk : k.isSome = true) (hv : v.isSome = true) :
    update_user_profile_db s k v c
      = Except.ok (update_user_profile s k v c) := by
  simp only [update_user_profile_db]
  simp [update_valid s k v c hs hk hv]

theorem processFacts_db_ok :
    ∀ (l : List FactCandidate) (s : Store),
      s.profiles.all profileRowOk = true →
      l.all (fun p => p.key.isSome && p.value.isSome) = true →
      processFacts_db s l = Except.ok (processFacts s l) ∧
      (processFacts s l).profiles.all profileRowOk = true := by
  intro l
  induction l with
  | nil => intro s hs _; exact ⟨rfl, hs⟩
  | cons p rest ih =>
    intro s hs hl
    simp only [List.all_cons, Bool.and_eq_true] at hl
    have hupd := update_valid s p.key p.value p.category hs hl.1.1 hl.1.2
    have hdb := update_db_ok s p.key p.value p.category hs hl.1.1 hl.1.2
    have hrest := ih (update_user_profile s p.key p.value p.category) hupd
      (by rw [List.all_eq_true]; intro x hx; exact List.all_eq_true.mp hl.2 x hx)
    constructor
    · rw [processFacts_db, hdb, processFacts]
      exact hrest.1
    · rw [processFacts]
      exact hrest.2

theorem pending_goals_valid (c : List Goal) (gs : List GoalCandidate)
    (hg : gs.all (fun g => g.title.isSome) = true) :
    (processGoals c gs []).all goalRowOk = true := by
  rw [List.all_eq_true]
  intro x hx
  rw [processGoals_eq_filter, List.nil_append] at hx
  rcases List.mem_map.mp hx with ⟨g, hgmem, rfl⟩
  have := List.all_eq_true.mp hg g (List.mem_of_mem_filter hgmem)
  simpa [goalRowOk, newGoalOf] using this

/-- C3: goal dedup is per candidate: consolidation appends to the goals
table exactly one new goal per candidate whose title does not match a
committed active goal, in batch order — so every candidate whose title
matches an existing active goal causes no insert, also in mixed batches,
and existing goals are never modified; consolidating any extraction result
twice leaves the goals of the first consolidation unchanged, and the
concrete one-candidate result consolidated twice yields exactly one
goal. -/
theorem goal_dedup_idempotent :
    (∀ (s : Store) (er : ExtractionResult),
        (save_extracted_information s er).goals
          = s.goals ++ assignIds s.nextGoalId
              ((er.goals.filter
                  (fun g => (s.goals.find? (goalMatches g.title)).isNone)).map
                newGoalOf)) ∧
    (∀ (s : Store) (er : ExtractionResult),
        (save_extracted_information (save_extracted_information s er) er).goals
          = (save_extracted_information s er).goals) ∧
    (save_extracted_information (save_extracted_information emptyStore erLearnPython)
        erLearnPython).goals.length = 1 := by
  refine ⟨?_, fun s er => goals_unchanged_of_all_match _ er (save_covers s er),
          by decide⟩
  intro s er
  rw [(save_goals_eq s er).1, processGoals_eq_filter s.goals er.goals [],
    List.nil_append]

/-- Witness for C3 at a concrete mixed batch: the candidate titled like
the existing active goal inserts nothing and only the fresh candidate is
appended. -/
theorem goal_dedup_idempotent_witness :
    (save_extracted_information learnXStore erMixed).goals
      = learnXStore.goals ++ assignIds learnXStore.nextGoalId
          ((erMixed.goals.filter
              (fun g => (learnXStore.goals.find? (goalMatches g.title)).isNone)).map
            newGoalOf) :=
  goal_dedup_idempotent.1 learnXStore erMixed

/-- C7: every goal row added by consolidation has status `active`,
progress `0` and no deadline — the candidate's deadline string is
dropped. -/
theorem inserted_goals_have_defaults (s : Store) (er : ExtractionResult)
    (g : Goal) (h : g ∈ (save_extracted_information s er).goals) :
    g ∈ s.goals ∨ (g.status = "active" ∧ g.progress = 0 ∧ g.deadline = none) := by
  rw [(save_goals_eq s er).1] at h
  rcases List.mem_append.mp h with h | h
  · exact Or.inl h
  · right
    refine assignIds_all
      (fun y => y.status = "active" ∧ y.progress = 0 ∧ y.deadline = none)
      (fun y i hy => hy) _ s.nextGoalId ?_ g h
    exact processGoals_all s.goals _ (fun gc => ⟨rfl, rfl, rfl⟩) er.goals []
      (fun x hx => absurd hx (List.not_mem_nil x))

/-- Witness for C7: the goal stored for a candidate that carried the
deadline string December has status active, progress 0 and no deadline. -/
theorem inserted_goals_have_defaults_witness :
    learnPythonGoal ∈ emptyStore.goals ∨
    (learnPythonGoal.status = "active" ∧ learnPythonGoal.progress = 0 ∧
      learnPythonGoal.deadline = none) :=
  inserted_goals_have_defaults emptyStore erDeadline learnPythonGoal (by decide)

/-- C9: when one extraction result holds two goal candidates with the same
title and no committed active goal has that title, both candidates are
inserted: the duplicate check queries only the committed goals table
(`autoflush=False`), so the pending insert of the first candidate is
invisible to the second. -/
theorem duplicate_titles_in_one_batch_both_insert (s : Store)
    (g1 g2 : GoalCandidate) (er : ExtractionResult)
    (her : er = { user_profile := [], goals := [g1, g2] })
    (ht : g2.title = g1.title)
    (hno : s.goals.find? (goalMatches g1.title) = none) :
    ((save_extracted_information s er).goals.filter
        (fun gl => gl.title == g1.title)).length
      = (s.goals.filter (fun gl => gl.title == g1.title)).length + 2 := by
  subst her
  have h2 : processGoals s.goals [g1, g2] [] = [newGoalOf g1, newGoalOf g2] := by
    have e1 : processGoals s.goals [g1, g2] []
        = processGoals s.goals [g2] [newGoalOf g1] := by
      rw [processGoals, hno]
      rfl
    have e2 : processGoals s.goals [g2] [newGoalOf g1]
        = [newGoalOf g1, newGoalOf g2] := by
      rw [processGoals, ht, hno]
      rfl
    rw [e1, e2]
  rw [(save_goals_eq s _).1]
  simp [h2, assignIds, newGoalOf, List.filter_append, List.filter_cons, ht]

/-- Witness for C9 at the concrete duplicate-title extraction result. -/
theorem duplicate_titles_both_insert_witness :
    ((save_extracted_information emptyStore erDupTitles).goals.filter
        (fun gl => gl.title == some "run a marathon")).length
      = (emptyStore.goals.filter
          (fun gl => gl.title == some "run a marathon")).length + 2 :=
  duplicate_titles_in_one_batch_both_insert emptyStore
    ⟨some "run a marathon", some "first", none, none⟩
    ⟨some "run a marathon", some "second", none, none⟩
    erDupTitles rfl rfl rfl

/-- C5 (amended): consolidation itself performs no schema validation — a
malformed fact candidate (one lacking its key or value field) is passed to
the upsert, whose commit then raises IntegrityError on the NOT NULL
columns of `user_profile`: it is not dropped silently, nothing of it is
persisted, the error propagates, and the remaining candidates of the batch
(well-formed ones included) are not applied; a batch all of whose
candidates satisfy the schema's NOT NULL columns commits without
raising. -/
theorem malformed_candidates_are_upserted :
    (∀ (s : Store) (k v c : Option String),
        s.profiles.all profileRowOk = true →
        (k.isNone = true ∨ v.isNone = true) →
        update_user_profile_db s k v c = Except.error integrityError) ∧
    (∀ (s : Store) (er : ExtractionResult) (bad : FactCandidate)
        (post : List FactCandidate),
        er.user_profile = bad :: post →
        s.profiles.all profileRowOk = true →
        (bad.key.isNone = true ∨ bad.value.isNone = true) →
        save_extracted_information_db s er
          = Except.error (integrityError, s)) ∧
    (∀ (s : Store) (er : ExtractionResult),
        s.profiles.all profileRowOk = true →
        er.user_profile.all (fun p => p.key.isSome && p.value.isSome) = true →
        er.goals.all (fun g => g.title.isSome) = true →
        save_extracted_information_db s er
          = Except.ok (save_extracted_information s er)) := by
  refine ⟨fun s k v c hs hbad => update_db_error_of_invalid s k v c hs hbad,
          ?_, ?_⟩
  · intro s er bad post her hs hbad
    have herr := update_db_error_of_invalid s bad.key bad.value bad.category hs hbad
    rw [save_extracted_information_db, her, processFacts_db, herr]
  · intro s er hs hfacts hgoals
    have hpf := processFacts_db_ok er.user_profile s hs hfacts
    have hpend := pending_goals_valid (processFacts s er.user_profile).goals
      er.goals hgoals
    rw [save_extracted_information_db, hpf.1]
    simp only [hpend, if_true]
    rfl

/-- C5 counterexample: a batch holding a fact candidate with no key and no
value followed by a well-formed one is not handled by dropping the
malformed entry silently: the commit raises IntegrityError, and the
well-formed candidate in the same batch is never applied (the committed
state is still the empty store). -/
theorem malformed_candidate_written_counterexample :
    save_extracted_information_db emptyStore erMalformedBatch
      = Except.error (integrityError, emptyStore) ∧
    save_extracted_information_db emptyStore erMalformedBatch
      ≠ Except.ok (save_extracted_information emptyStore erMalformedBatch) := by
  refine ⟨rfl, ?_⟩
  intro h
  rw [show save_extracted_information_db emptyStore erMalformedBatch
      = Except.error (integrityError, emptyStore) from rfl] at h
  exact Except.noConfusion h

/-- Witness for C5: consolidating the single malformed candidate from the
one-fact store raises IntegrityError and persists nothing. -/
theorem malformed_candidates_are_upserted_witness :
    save_extracted_information_db aliceStore erMalformed
      = Except.error (integrityError, aliceStore) :=
  malformed_candidates_are_upserted.2.1 aliceStore erMalformed
    ⟨none, none, none⟩ [] rfl (by decide) (Or.inl rfl)

/-- C1 (amended): consolidation is not a single transaction: one call
performs one commit per fact candidate (each of these intermediate commits
leaves the goals table and the goal id counter untouched) plus one final
commit, which equals the call's result and is where all goal inserts land
together.  A storage failure between commits therefore leaves the fact
candidates committed so far persisted. -/
theorem consolidation_commit_structure (s : Store) (er : ExtractionResult) :
    (commitStates s er).length = er.user_profile.length + 1 ∧
    (∀ st ∈ factCommitStates s er.user_profile,
        st.goals = s.goals ∧ st.nextGoalId = s.nextGoalId) ∧
    (commitStates s er).getLast? = some (save_extracted_information s er) := by
  refine ⟨?_, factCommitStates_goals er.user_profile s, ?_⟩
  · rw [commitStates, List.length_append, factCommitStates_length er.user_profile s]
    rfl
  · rw [commitStates]
    exact List.getLast?_concat _

/-- C1 counterexample: consolidating two fact candidates performs three
commits, not one, and the state committed first already persists the first
candidate — so a storage failure partway through the batch leaves a
candidate of the call persisted. -/
theorem single_transaction_counterexample :
    (commitStates emptyStore erTwoFacts).length = 3 ∧
    ((factCommitStates emptyStore erTwoFacts.user_profile).headD emptyStore).profiles
      = [⟨some "name", some "Alice", some "personal"⟩] ∧
    (factCommitStates emptyStore erTwoFacts.user_profile).headD emptyStore
      ≠ emptyStore := by
  exact ⟨by decide, by decide, by decide⟩

/-- Witness for C1 at the two-fact extraction result: the first committed
state has an unchanged goals table. -/
theorem consolidation_commit_structure_witness :
    ((factCommitStates emptyStore erTwoFacts.user_profile).headD emptyStore).goals
      = emptyStore.goals :=
  ((consolidation_commit_structure emptyStore erTwoFacts).2.1
    ((factCommitStates emptyStore erTwoFacts.user_profile).headD emptyStore)
    (by decide)).1

/-- C6: if the external model call raises, or the returned text is not
exactly one valid JSON document, `extract_information` returns the empty
extraction dict and propagates no error (the function is total). -/
theorem extraction_fails_open (outcome : CallOutcome)
    (h : (∃ m, outcome = CallOutcome.raises m) ∨
         (∃ t, outcome = CallOutcome.returns t ∧ jsonLoads t = none)) :
    extract_information outcome = emptyExtraction := by
  rcases h with ⟨m, rfl⟩ | ⟨t, rfl, hp⟩
  · rfl
  · simp [extract_information, hp]

/-- Witness for C6: a raising call and a non-JSON reply both yield the
empty extraction dict. -/
theorem extraction_fails_open_witness :
    extract_information (CallOutcome.raises "connection refused") = emptyExtraction ∧
    extract_information (CallOutcome.returns "this is not json") = emptyExtraction :=
  ⟨extraction_fails_open _ (Or.inl ⟨"connection refused", rfl⟩),
   extraction_fails_open _ (Or.inr ⟨"this is not json", rfl, rfl⟩)⟩

end MemoryAssistant
